import Mathlib

/-!
Verification of the safe-nd data-model core.

This file gives a shallow embedding of the source files:
  src/immutable_data.rs   (UnpubImmutableData and its SHA3-based name derivation)
  src/public_key.rs       (PublicKey, Signature, verify_detached, XorName conversion)
  src/keys/keypair.rs     (Keypair, sign, public_key, secret_key)
  src/mutable_data.rs     (MutableData, MutableDataKind, Value, Permission, User,
                           Permissions, MutableDataRef)
  src/request/mod.rs      (Request and its error_response dispatch)

Machine bytes are modelled as Nat values below 256, byte strings as List Nat,
and 64-bit lanes as Nat masked to 64 bits.  The external cryptographic
primitives (ed25519_dalek and threshold_crypto) are out of scope of the
repository and are treated as a trusted black box: they are modelled by a
structure of abstract carrier types and operations over which all statements
are parameterised.  The hash primitive tiny_keccak::sha3_256 is implemented
in full (Keccak-f[1600] sponge, FIPS 202), since the address-derivation
claims are about its concrete use.

Repository types missing from the given sources (the Error enum, the
SecretKey and SignatureShare wrappers, the per-family request modules, the
Response enum, and the permission-mutation operation on MutableData) are
modelled from the specification; each such definition carries a doc comment
starting with: Modelled from the spec.
-/

namespace SafeNd

/-! ## SHA3-256 (the tiny_keccak::sha3_256 primitive used by immutable_data.rs) -/

/-- Mask keeping the low 64 bits of a Nat, the lane width of Keccak-f[1600]. -/
def mask64 : Nat := 2 ^ 64 - 1

/-- Left rotation of a 64-bit lane by n bits (n below 64). -/
def rotl64 (a n : Nat) : Nat :=
  ((a <<< n) ||| (a >>> (64 - n))) &&& mask64

/-- Round constants of Keccak-f[1600] (FIPS 202, iota step). -/
def keccakRC : List Nat :=
  [0x1, 0x8082, 0x800000000000808a] ++
    [0x8000000080008000, 0x808b, 0x80000001] ++
    [0x8000000080008081, 0x8000000000008009, 0x8a] ++
    [0x88, 0x80008009, 0x8000000a] ++
    [0x8000808b, 0x800000000000008b, 0x8000000000008089] ++
    [0x8000000000008003, 0x8000000000008002, 0x8000000000000080] ++
    [0x800a, 0x800000008000000a, 0x8000000080008081] ++
    [0x8000000000008080, 0x80000001, 0x8000000080008008]

/-- Rotation offsets of the rho step, indexed by x + 5 * y, one sublist per
row y. -/
def keccakRho : List Nat :=
  [0, 1, 62, 28, 27] ++ [36, 44, 6, 55, 20] ++ [3, 10, 43, 25, 39] ++
    [41, 45, 15, 21, 8] ++ [18, 2, 61, 56, 14]

/-- Theta step of Keccak-f[1600]; the state is 25 lanes indexed by x + 5 * y. -/
def keccakTheta (s : List Nat) : List Nat :=
  let c : Nat → Nat := fun x =>
    (s.getD x 0) ^^^ (s.getD (x + 5) 0) ^^^ (s.getD (x + 10) 0) ^^^
      (s.getD (x + 15) 0) ^^^ (s.getD (x + 20) 0)
  let d : Nat → Nat := fun x => (c ((x + 4) % 5)) ^^^ (rotl64 (c ((x + 1) % 5)) 1)
  (List.range 25).map (fun i => (s.getD i 0) ^^^ d (i % 5))

/-- Combined rho and pi steps: the output lane at (x, y) is the input lane at
((x + 3 y) mod 5, x) rotated by its rho offset. -/
def keccakRhoPi (s : List Nat) : List Nat :=
  (List.range 25).map (fun j =>
    let src := ((j % 5) + 3 * (j / 5)) % 5 + 5 * (j % 5)
    rotl64 (s.getD src 0) (keccakRho.getD src 0))

/-- Chi step: each lane is xored with the AND of the complement of its right
neighbour and its second right neighbour in the same row. -/
def keccakChi (s : List Nat) : List Nat :=
  (List.range 25).map (fun j =>
    let x := j % 5
    let row := 5 * (j / 5)
    (s.getD j 0) ^^^
      (((s.getD (row + (x + 1) % 5) 0) ^^^ mask64) &&& (s.getD (row + (x + 2) % 5) 0)))

/-- Iota step: xor the round constant into lane (0, 0). -/
def keccakIota (rc : Nat) (s : List Nat) : List Nat :=
  s.set 0 ((s.getD 0 0) ^^^ rc)

/-- One round of Keccak-f[1600]. -/
def keccakRound (s : List Nat) (rc : Nat) : List Nat :=
  keccakIota rc (keccakChi (keccakRhoPi (keccakTheta s)))

/-- The full 24-round Keccak-f[1600] permutation. -/
def keccakF (s : List Nat) : List Nat :=
  keccakRC.foldl keccakRound s

/-- Rate of SHA3-256 in bytes: 1088 bits. -/
def sha3Rate : Nat := 136

/-- FIPS 202 pad10*1 padding with the SHA3 domain bits 01: append 0x06, zero
bytes, and a final 0x80 (a single 0x86 byte when one padding byte is needed). -/
def sha3Pad (m : List Nat) : List Nat :=
  let q := sha3Rate - m.length % sha3Rate
  if q = 1 then m ++ [0x86]
  else m ++ [0x06] ++ List.replicate (q - 2) 0 ++ [0x80]

/-- Little-endian interpretation of up to eight bytes as one 64-bit lane. -/
def laneOfBytes (bs : List Nat) : Nat :=
  bs.foldr (fun b acc => b + (acc <<< 8)) 0

/-- Absorb one 136-byte block: xor it into the first 17 lanes and permute. -/
def absorbBlock (s block : List Nat) : List Nat :=
  let lanes := (List.range 17).map (fun i => laneOfBytes ((block.drop (8 * i)).take 8))
  keccakF ((List.range 25).map (fun i => (s.getD i 0) ^^^ (lanes.getD i 0)))

/-- Split a byte string into rate-sized blocks; the first argument is fuel
bounding the recursion by the length of the input. -/
def splitBlocks : Nat → List Nat → List (List Nat)
  | 0, _ => []
  | _, [] => []
  | fuel + 1, l => (l.take sha3Rate) :: splitBlocks fuel (l.drop sha3Rate)

/-- Sponge absorption of a whole (unpadded) message for SHA3-256. -/
def sha3Absorb (m : List Nat) : List Nat :=
  (splitBlocks (sha3Pad m).length (sha3Pad m)).foldl absorbBlock (List.replicate 25 0)

/-- SHA3-256 of a byte string: absorb, then squeeze the first 32 bytes of the
state (little-endian within each lane).  This models tiny_keccak::sha3_256. -/
def sha3_256 (m : List Nat) : List Nat :=
  (List.range 32).map (fun i => ((sha3Absorb m).getD (i / 8) 0 >>> (8 * (i % 8))) % 256)

/-! ## Addresses and errors -/

/-- XorName: the 32-byte network address type (crate xor_name, re-exported by
the repository as its Address type).  XOR_NAME_LEN is 32. -/
structure XorName where
  bytes : List Nat
deriving DecidableEq

/-- Width of an XorName in bytes (XOR_NAME_LEN in the source). -/
def XOR_NAME_LEN : Nat := 32

/-- Modelled from the spec: the Error enum is defined outside the given
sources; its kinds are taken from section 7 of the specification together
with the constructors actually used in src (SigningKeyTypeMismatch,
InvalidSignature, Unexpected). -/
inductive Error where
  | SigningKeyTypeMismatch
  | InvalidSignature
  | Unexpected (msg : String)
  | AccessDenied
  | InvalidOwner
  | InvalidVersion
deriving DecidableEq

/-! ## The external cryptographic primitives

The repository consumes ed25519_dalek and threshold_crypto as trusted black
boxes.  A Crypto structure packages their carrier types and operations; every
definition translated from the source is parameterised by such a structure,
exactly as the source is parameterised by its extern crates. -/

/-- Carrier types and operations of the external signature primitives
(ed25519_dalek and threshold_crypto) consumed by the repository. -/
structure Crypto where
  EdPk : Type
  EdSk : Type
  EdSig : Type
  BlsPk : Type
  BlsSk : Type
  BlsSig : Type
  BlsPkShare : Type
  BlsSkShare : Type
  BlsSigShare : Type
  BlsPkSet : Type
  edVerify : EdPk → EdSig → List Nat → Bool
  blsVerify : BlsPk → BlsSig → List Nat → Bool
  blsShareVerify : BlsPkShare → BlsSigShare → List Nat → Bool
  edSign : EdSk → List Nat → EdSig
  blsSign : BlsSk → List Nat → BlsSig
  blsShareSign : BlsSkShare → List Nat → BlsSigShare
  edPub : EdSk → EdPk
  blsPub : BlsSk → BlsPk
  blsSharePub : BlsSkShare → BlsPkShare
  edPkToBytes : EdPk → List Nat
  blsPkToBytes : BlsPk → List Nat
  blsPkShareToBytes : BlsPkShare → List Nat
  edSkToBytes : EdSk → List Nat
  edSkFromBytes : List Nat → Option EdSk
  blsPkDecEq : DecidableEq BlsPk

instance (C : Crypto) : DecidableEq C.BlsPk := C.blsPkDecEq

/-! ## public_key.rs -/

/-- PublicKey from src/public_key.rs: a tagged union over the three
signature algorithms. -/
inductive PublicKey (C : Crypto) where
  | Ed25519 (key : C.EdPk)
  | Bls (key : C.BlsPk)
  | BlsShare (key : C.BlsPkShare)

/-- Modelled from the spec: the SignatureShare wrapper used by keypair.rs is
defined outside the given sources; per the specification a BlsShare signature
additionally carries the share index it was produced under. -/
structure SignatureShare (C : Crypto) where
  index : Nat
  share : C.BlsSigShare

/-- Signature from src/public_key.rs: a tagged union mirroring PublicKey.
The BlsShare variant carries the index-tagged share wrapper constructed by
Keypair.sign in src/keys/keypair.rs. -/
inductive Signature (C : Crypto) where
  | Ed25519 (sig : C.EdSig)
  | Bls (sig : C.BlsSig)
  | BlsShare (sig : SignatureShare C)

/-- Variant tags of the three signature algorithms. -/
inductive KeyVariant where
  | Ed25519
  | Bls
  | BlsShare
deriving DecidableEq

/-- Variant tag of a PublicKey. -/
def PublicKey.variant {C : Crypto} : PublicKey C → KeyVariant
  | .Ed25519 _ => .Ed25519
  | .Bls _ => .Bls
  | .BlsShare _ => .BlsShare

/-- Variant tag of a Signature. -/
def Signature.variant {C : Crypto} : Signature C → KeyVariant
  | .Ed25519 _ => .Ed25519
  | .Bls _ => .Bls
  | .BlsShare _ => .BlsShare

/-- PublicKey::verify_detached from src/public_key.rs: on matching variants
run the algorithm-specific check and map a rejection to InvalidSignature; any
variant mismatch returns SigningKeyTypeMismatch before any check runs.  (The
source computes the boolean is_valid in a match whose default arm early
returns the mismatch error, then branches on it; the per-arm conditional here
is the same composition.) -/
def PublicKey.verify_detached {C : Crypto} (pk : PublicKey C) (sig : Signature C)
    (data : List Nat) : Except Error Unit :=
  match pk, sig with
  | .Ed25519 k, .Ed25519 s =>
    if C.edVerify k s data then .ok () else .error .InvalidSignature
  | .Bls k, .Bls s =>
    if C.blsVerify k s data then .ok () else .error .InvalidSignature
  | .BlsShare k, .BlsShare s =>
    if C.blsShareVerify k s.share data then .ok () else .error .InvalidSignature
  | _, _ => .error .SigningKeyTypeMismatch

/-- Result of the algorithm-specific check on a matched key and signature
pair; false on any variant mismatch. -/
def primitiveAccepts {C : Crypto} : PublicKey C → Signature C → List Nat → Bool
  | .Ed25519 k, .Ed25519 s, m => C.edVerify k s m
  | .Bls k, .Bls s, m => C.blsVerify k s m
  | .BlsShare k, .BlsShare s, m => C.blsShareVerify k s.share m
  | _, _, _ => false

/-- From PublicKey for XorName in src/public_key.rs: an Ed25519 key yields
its raw 32-byte encoding verbatim; a Bls or BlsShare key yields the first
XOR_NAME_LEN bytes of its canonical encoding (the source copies the slice
bytes[..XOR_NAME_LEN], total because both encodings are 48 bytes wide). -/
def xorNameOfPublicKey {C : Crypto} : PublicKey C → XorName
  | .Ed25519 k => ⟨C.edPkToBytes k⟩
  | .Bls k => ⟨(C.blsPkToBytes k).take XOR_NAME_LEN⟩
  | .BlsShare k => ⟨(C.blsPkShareToBytes k).take XOR_NAME_LEN⟩

/-! ## keys/keypair.rs -/

/-- Keypair of ed25519_dalek: the secret together with its cached public key. -/
structure EdKeypair (C : Crypto) where
  secret : C.EdSk
  public : C.EdPk

/-- BlsKeypair from src/keys/keypair.rs. -/
structure BlsKeypair (C : Crypto) where
  secret : C.BlsSk
  public : C.BlsPk

/-- BlsKeypairShare from src/keys/keypair.rs: a share index, the secret and
public shares, and the public key set of the collective. -/
structure BlsKeypairShare (C : Crypto) where
  index : Nat
  secret : C.BlsSkShare
  public : C.BlsPkShare
  public_key_set : C.BlsPkSet

/-- Keypair from src/keys/keypair.rs: wrapper over the three keypair types. -/
inductive Keypair (C : Crypto) where
  | Ed25519 (kp : EdKeypair C)
  | Bls (kp : BlsKeypair C)
  | BlsShare (kp : BlsKeypairShare C)

/-- Modelled from the spec: the SecretKey enum returned by
Keypair::secret_key is defined outside the given sources; it mirrors the
three keypair variants. -/
inductive SecretKey (C : Crypto) where
  | Ed25519 (sk : C.EdSk)
  | Bls (sk : C.BlsSk)
  | BlsShare (sk : C.BlsSkShare)

/-- Keypair::public_key from src/keys/keypair.rs. -/
def Keypair.public_key {C : Crypto} : Keypair C → PublicKey C
  | .Ed25519 kp => .Ed25519 kp.public
  | .Bls kp => .Bls kp.public
  | .BlsShare kp => .BlsShare kp.public

/-- Keypair::secret_key from src/keys/keypair.rs: the Ed25519 arm serialises
the stored secret to bytes and rebuilds it, mapping a failed rebuild to the
recoverable Unexpected error; the Bls and BlsShare arms return the stored
secret directly and cannot fail. -/
def Keypair.secret_key {C : Crypto} : Keypair C → Except Error (SecretKey C)
  | .Ed25519 kp =>
    match C.edSkFromBytes (C.edSkToBytes kp.secret) with
    | some sk => .ok (.Ed25519 sk)
    | none => .error (.Unexpected "Could not deserialise Ed25519 secret key")
  | .Bls kp => .ok (.Bls kp.secret)
  | .BlsShare kp => .ok (.BlsShare kp.secret)

/-- Keypair::sign from src/keys/keypair.rs: dispatch to the primitive of the
variant; the BlsShare arm wraps the produced share with the stored index. -/
def Keypair.sign {C : Crypto} : Keypair C → List Nat → Signature C
  | .Ed25519 kp, data => .Ed25519 (C.edSign kp.secret data)
  | .Bls kp, data => .Bls (C.blsSign kp.secret data)
  | .BlsShare kp, data => .BlsShare ⟨kp.index, C.blsShareSign kp.secret data⟩

/-- WellFormed keypair: the cached public key is the one derived from the
stored secret.  Every keypair built by the source constructors (new_ed25519,
new_bls, new_bls_share, the From conversions) has this property, since each
of them derives the public component from the secret. -/
def Keypair.WellFormed {C : Crypto} : Keypair C → Prop
  | .Ed25519 kp => kp.public = C.edPub kp.secret
  | .Bls kp => kp.public = C.blsPub kp.secret
  | .BlsShare kp => kp.public = C.blsSharePub kp.secret

/-! ## immutable_data.rs -/

/-- UnpubImmutableData from src/immutable_data.rs: contained bytes and the
single owner key (a threshold_crypto::PublicKey in the source). -/
structure UnpubImmutableData (C : Crypto) where
  data : List Nat
  owners : C.BlsPk

/-- UnpubImmutableData::name from src/immutable_data.rs: hash the content,
append the owner key bytes, and hash again. -/
def UnpubImmutableData.name {C : Crypto} (d : UnpubImmutableData C) : XorName :=
  ⟨sha3_256 (sha3_256 d.data ++ C.blsPkToBytes d.owners)⟩

/-- Specification-side derivation, following the words of the contract in
section 4.2: H(H(content) concatenated with the owner key bytes), with H
equal to SHA3-256.  Stated separately from UnpubImmutableData.name so the
two can be compared. -/
def immutable_name (content ownerBytes : List Nat) : List Nat :=
  sha3_256 (sha3_256 content ++ ownerBytes)

/-! ## mutable_data.rs -/

/-- Value from src/mutable_data.rs: actual data plus a per-entry version that
SHALL be incremented sequentially for any change to the data. -/
structure Value where
  data : List Nat
  version : Nat
deriving DecidableEq

/-- MutableDataKind from src/mutable_data.rs, kept exactly as the source
declares it: the variant named Unsequenced holds a map from String keys to
Value entries (bytes plus per-entry version), and the variant named Sequenced
holds a map from String keys to plain byte values.  Maps are modelled as
association lists in key order. -/
inductive MutableDataKind where
  | Unsequenced (data : List (String × Value))
  | Sequenced (data : List (String × List Nat))
deriving DecidableEq

/-- Entries of the Sequenced variant, when that is the variant at hand. -/
def MutableDataKind.sequencedEntries : MutableDataKind → Option (List (String × List Nat))
  | .Sequenced d => some d
  | _ => none

/-- Entries of the Unsequenced variant, when that is the variant at hand. -/
def MutableDataKind.unsequencedEntries : MutableDataKind → Option (List (String × Value))
  | .Unsequenced d => some d
  | _ => none

/-- Permission from src/mutable_data.rs. -/
inductive Permission where
  | Read
  | Insert
  | Update
  | Delete
  | ManagePermissions
deriving DecidableEq

/-- User from src/mutable_data.rs: a single public key, or anyone.  The key
is a threshold_crypto::PublicKey in the source. -/
inductive User (C : Crypto) where
  | Key (key : C.BlsPk)
  | Anyone

instance {C : Crypto} : DecidableEq (User C) := fun a b =>
  match a, b with
  | .Key x, .Key y =>
    match C.blsPkDecEq x y with
    | isTrue h => isTrue (by rw [h])
    | isFalse h => isFalse (fun hc => h (by cases hc; rfl))
  | .Key _, .Anyone => isFalse (fun hc => User.noConfusion hc)
  | .Anyone, .Key _ => isFalse (fun hc => User.noConfusion hc)
  | .Anyone, .Anyone => isTrue rfl

/-- MutableData from src/mutable_data.rs: network name, type tag, kinded
data, permissions map, container-level version, and the single owner key. -/
structure MutableData (C : Crypto) where
  name : XorName
  tag : Nat
  data : MutableDataKind
  permissions : List (User C × List Permission)
  version : Nat
  owners : C.BlsPk

/-- MutableData::new from src/mutable_data.rs: store the five arguments and
initialise the container-level version to 0.  The owners argument is one
single public key; the constructor performs no validation and cannot fail. -/
def MutableData.new {C : Crypto} (name : XorName) (tag : Nat) (data : MutableDataKind)
    (permissions : List (User C × List Permission)) (owners : C.BlsPk) : MutableData C :=
  ⟨name, tag, data, permissions, 0, owners⟩

/-- Permissions record from src/mutable_data.rs: a permissions map snapshot
together with the data index and owner entry index current when the
permission change happened. -/
structure Permissions (C : Crypto) where
  permissions : List (User C × List Permission)
  data_index : Nat
  owner_entry_index : Nat

/-- MutableDataRef from src/mutable_data.rs: a non-owning (name, tag) pair. -/
structure MutableDataRef where
  name : XorName
  tag : Nat
deriving DecidableEq

/-- Permission set granted to a user in a permissions map; empty when the
user has no entry. -/
def lookupPermissions {C : Crypto} (perms : List (User C × List Permission))
    (u : User C) : List Permission :=
  ((perms.find? (fun p => decide (p.1 = u))).map (fun p => p.2)).getD []

/-- Authorisation predicate of the permission-mutation transition: the
requester is the owner, or is a User.Key entry of the permissions map holding
ManagePermissions. -/
def canManagePermissions {C : Crypto} (md : MutableData C) (requester : C.BlsPk) : Bool :=
  decide (requester = md.owners) ||
    decide (Permission.ManagePermissions ∈ lookupPermissions md.permissions (.Key requester))

/-- Modelled from the spec: the permission-history bookkeeping of section
4.3 is defined outside the given sources; a container state carries the
MutableData value, the recorded permission history, and the data index and
owner entry index that are current. -/
structure MutableDataState (C : Crypto) where
  md : MutableData C
  history : List (Permissions C)
  data_index : Nat
  owner_entry_index : Nat

/-- Modelled from the spec: the transition mutate permissions or owner of
section 4.3, absent from the given sources (src/mutable_data.rs defines only
the data types and constructor).  It is valid only if the requester is the
owner or a User.Key holding ManagePermissions; on success the new permissions
and owner are installed, the container-level version increases by one, and a
history record capturing the pre-mutation data index and owner entry index is
appended; otherwise it fails with AccessDenied. -/
def mutatePermissionsOrOwner {C : Crypto} (s : MutableDataState C) (requester : C.BlsPk)
    (newPermissions : List (User C × List Permission)) (newOwner : C.BlsPk) :
    Except Error (MutableDataState C) :=
  if canManagePermissions s.md requester then
    .ok { s with
          md := { s.md with
                  permissions := newPermissions
                  owners := newOwner
                  version := s.md.version + 1 }
          history := s.history ++ [⟨newPermissions, s.data_index, s.owner_entry_index⟩] }
  else
    .error .AccessDenied

/-- State after a permission mutation attempt, with the mutable-reference
semantics of the source: the state is unchanged when the attempt fails. -/
def runMutatePermissionsOrOwner {C : Crypto} (s : MutableDataState C) (requester : C.BlsPk)
    (newPermissions : List (User C × List Permission)) (newOwner : C.BlsPk) :
    MutableDataState C :=
  match mutatePermissionsOrOwner s requester newPermissions newOwner with
  | .ok s2 => s2
  | .error _ => s

/-! ## request/mod.rs -/

/-- Modelled from the spec: the per-family request payload enums live in the
request submodules, which are outside the given sources; their payloads are
abstracted to a single representative each, which is all the family-dispatch
claim consumes. -/
inductive IDataRequest where
  | mk

/-- Modelled from the spec: see IDataRequest. -/
inductive MDataRequest where
  | mk

/-- Modelled from the spec: see IDataRequest. -/
inductive ADataRequest where
  | mk

/-- Modelled from the spec: see IDataRequest. -/
inductive SDataRequest where
  | mk

/-- Modelled from the spec: see IDataRequest. -/
inductive CoinsRequest where
  | mk

/-- Modelled from the spec: see IDataRequest. -/
inductive LoginPacketRequest where
  | mk

/-- Modelled from the spec: see IDataRequest. -/
inductive ClientRequest where
  | mk

/-- Request from src/request/mod.rs: the seven request families. -/
inductive Request where
  | IData (req : IDataRequest)
  | MData (req : MDataRequest)
  | AData (req : ADataRequest)
  | SData (req : SDataRequest)
  | Coins (req : CoinsRequest)
  | LoginPacket (req : LoginPacketRequest)
  | Client (req : ClientRequest)

/-- The seven request and response families. -/
inductive Family where
  | IData
  | MData
  | AData
  | SData
  | Coins
  | LoginPacket
  | Client
deriving DecidableEq

/-- Modelled from the spec: the Response enum is outside the given sources;
per section 4.4 every family has an error-carrying response variant of its
own, with no generic untyped error variant. -/
inductive Response where
  | IDataError (e : Error)
  | MDataError (e : Error)
  | ADataError (e : Error)
  | SDataError (e : Error)
  | CoinsError (e : Error)
  | LoginPacketError (e : Error)
  | ClientError (e : Error)

/-- Family of a Request. -/
def Request.family : Request → Family
  | .IData _ => .IData
  | .MData _ => .MData
  | .AData _ => .AData
  | .SData _ => .SData
  | .Coins _ => .Coins
  | .LoginPacket _ => .LoginPacket
  | .Client _ => .Client

/-- Family of a Response. -/
def Response.family : Response → Family
  | .IDataError _ => .IData
  | .MDataError _ => .MData
  | .ADataError _ => .AData
  | .SDataError _ => .SData
  | .CoinsError _ => .Coins
  | .LoginPacketError _ => .LoginPacket
  | .ClientError _ => .Client

/-- Modelled from the spec: error_response of the IData family returns the
IData-family error response. -/
def IDataRequest.error_response (_ : IDataRequest) (e : Error) : Response :=
  .IDataError e

/-- Modelled from the spec: see IDataRequest.error_response. -/
def MDataRequest.error_response (_ : MDataRequest) (e : Error) : Response :=
  .MDataError e

/-- Modelled from the spec: see IDataRequest.error_response. -/
def ADataRequest.error_response (_ : ADataRequest) (e : Error) : Response :=
  .ADataError e

/-- Modelled from the spec: see IDataRequest.error_response. -/
def SDataRequest.error_response (_ : SDataRequest) (e : Error) : Response :=
  .SDataError e

/-- Modelled from the spec: see IDataRequest.error_response. -/
def CoinsRequest.error_response (_ : CoinsRequest) (e : Error) : Response :=
  .CoinsError e

/-- Modelled from the spec: see IDataRequest.error_response. -/
def LoginPacketRequest.error_response (_ : LoginPacketRequest) (e : Error) : Response :=
  .LoginPacketError e

/-- Modelled from the spec: see IDataRequest.error_response. -/
def ClientRequest.error_response (_ : ClientRequest) (e : Error) : Response :=
  .ClientError e

/-- Request::error_response from src/request/mod.rs: dispatch to the
error_response of the matched family. -/
def Request.error_response (r : Request) (e : Error) : Response :=
  match r with
  | .IData req => req.error_response e
  | .MData req => req.error_response e
  | .AData req => req.error_response e
  | .SData req => req.error_response e
  | .Coins req => req.error_response e
  | .LoginPacket req => req.error_response e
  | .Client req => req.error_response e

/-! ## A concrete instantiation of the external primitives

ToyCrypto instantiates the abstract primitive interface with small
executable stand-ins; it is used only by the closed witness theorems to
evaluate the parameterised definitions on concrete inputs. -/

/-- Concrete executable instantiation of the Crypto interface: keys are
naturals, a signature is the signing key paired with the message, and
verification checks that pair. -/
abbrev ToyCrypto : Crypto where
  EdPk := Nat
  EdSk := Nat
  EdSig := Nat × List Nat
  BlsPk := Nat
  BlsSk := Nat
  BlsSig := Nat × List Nat
  BlsPkShare := Nat
  BlsSkShare := Nat
  BlsSigShare := Nat × List Nat
  BlsPkSet := Unit
  edVerify := fun pk s m => decide (s = (pk, m))
  blsVerify := fun pk s m => decide (s = (pk, m))
  blsShareVerify := fun pk s m => decide (s = (pk, m))
  edSign := fun sk m => (sk, m)
  blsSign := fun sk m => (sk, m)
  blsShareSign := fun sk m => (sk, m)
  edPub := fun sk => sk
  blsPub := fun sk => sk
  blsSharePub := fun sk => sk
  edPkToBytes := fun k => List.replicate 32 (k % 256)
  blsPkToBytes := fun k => [k]
  blsPkShareToBytes := fun k => List.replicate 48 (k % 256)
  edSkToBytes := fun sk => [sk]
  edSkFromBytes := fun l => l.head?
  blsPkDecEq := inferInstance

/-! ## Supporting lemmas -/

set_option maxRecDepth 20000 in
/-- FIPS 202 test vector: SHA3-256 of the empty message, checked by kernel
evaluation of the implementation. -/
theorem sha3_256_empty_vector : sha3_256 [] =
    [0xa7, 0xff, 0xc6, 0xf8, 0xbf, 0x1e, 0xd7, 0x66, 0x51, 0xc1, 0x47, 0x56, 0xa0, 0x61,
     0xd6, 0x62, 0xf5, 0x80, 0xff, 0x4d, 0xe4, 0x3b, 0x49, 0xfa, 0x82, 0xd8, 0x0a, 0x4b,
     0x80, 0xf8, 0x43, 0x4a] := by decide

set_option maxRecDepth 20000 in
/-- NIST test vector for a 1600-bit message (200 bytes of 0xa3), whose padded
form spans two sponge blocks. -/
theorem sha3_256_msg1600_vector : sha3_256 (List.replicate 200 0xa3) =
    [0x79, 0xf3, 0x8a, 0xde, 0xc5, 0xc2, 0x03, 0x07, 0xa9, 0x8e, 0xf7, 0x6e, 0x83, 0x24,
     0xaf, 0xbf, 0xd4, 0x6c, 0xfd, 0x81, 0xb2, 0x2e, 0x39, 0x73, 0xc6, 0x5f, 0xa1, 0xbd,
     0x9d, 0xe3, 0x17, 0x87] := by decide

/-- Output of sha3_256 is exactly 32 bytes long. -/
theorem sha3_256_length (m : List Nat) : (sha3_256 m).length = 32 := by
  simp [sha3_256]

/-- Every getD read of a sha3_256 output is below 256. -/
theorem sha3_256_getD_lt (m : List Nat) (i : Nat) : (sha3_256 m).getD i 0 < 256 := by
  by_cases h : i < (sha3_256 m).length
  · rw [List.getD_eq_getElem _ _ h]
    simp only [sha3_256, List.getElem_map]
    exact Nat.mod_lt _ (by norm_num)
  · rw [List.getD_eq_default _ _ (Nat.le_of_not_lt h)]
    norm_num

/-- Pigeonhole: the derived names of the infinitely many possible contents
live in the finite space of 32-byte strings, so under any fixed owner two
distinct contents share a name. -/
theorem name_collision {C : Crypto} (o : C.BlsPk) :
    ∃ c1 c2 : List Nat, c1 ≠ c2 ∧
      UnpubImmutableData.name (C := C) ⟨c1, o⟩ = UnpubImmutableData.name (C := C) ⟨c2, o⟩ := by
  classical
  let f : Nat → (Fin 32 → Fin 256) := fun n i =>
    ⟨(UnpubImmutableData.name (C := C) ⟨List.replicate n 0, o⟩).bytes.getD i 0,
      sha3_256_getD_lt _ i⟩
  obtain ⟨a, b, hab, hfeq⟩ := Finite.exists_ne_map_eq_of_infinite f
  refine ⟨List.replicate a 0, List.replicate b 0, ?_, ?_⟩
  · intro h
    exact hab (by simpa using congrArg List.length h)
  · have hbytes :
        (UnpubImmutableData.name (C := C) ⟨List.replicate a 0, o⟩).bytes
          = (UnpubImmutableData.name (C := C) ⟨List.replicate b 0, o⟩).bytes := by
      apply List.ext_getElem
      · show (sha3_256 _).length = (sha3_256 _).length
        rw [sha3_256_length, sha3_256_length]
      intro i h1 h2
      have hi : i < 32 := by
        have h32 : (UnpubImmutableData.name (C := C) ⟨List.replicate a 0, o⟩).bytes.length
            = 32 := sha3_256_length _
        omega
      have hv : (UnpubImmutableData.name (C := C) ⟨List.replicate a 0, o⟩).bytes.getD i 0
          = (UnpubImmutableData.name (C := C) ⟨List.replicate b 0, o⟩).bytes.getD i 0 :=
        congrArg Fin.val (congrFun hfeq ⟨i, hi⟩)
      rw [List.getD_eq_getElem _ _ h1, List.getD_eq_getElem _ _ h2] at hv
      exact hv
    exact congrArg XorName.mk hbytes

/-! ## Claim theorems -/

/-- Claim C1: the derived address of an UnpubImmutableData with content c and
owner pk is SHA3-256 of (SHA3-256 of c, concatenated with the owner key
bytes) — the inner content hash first, then the second hash — and the
derivation is deterministic: any two values with the same content and owner
(in particular with empty content) yield the identical address. -/
theorem claim_C1 (C : Crypto) (content : List Nat) (owner : C.BlsPk) :
    (UnpubImmutableData.name (C := C) ⟨content, owner⟩).bytes
        = immutable_name content (C.blsPkToBytes owner) ∧
      ∀ d : UnpubImmutableData C, d.data = content → d.owners = owner →
        d.name = UnpubImmutableData.name (C := C) ⟨content, owner⟩ := by
  refine ⟨rfl, ?_⟩
  intro d h1 h2
  cases d
  subst h1
  subst h2
  rfl

/-- Witness for claim C1 at a concrete input with empty content. -/
theorem claim_C1_witness :
    (UnpubImmutableData.name (C := ToyCrypto) ⟨[], 0⟩).bytes
        = immutable_name [] (ToyCrypto.blsPkToBytes 0) ∧
      UnpubImmutableData.name (C := ToyCrypto) ⟨[], 0⟩
        = UnpubImmutableData.name (C := ToyCrypto) ⟨[], 0⟩ :=
  ⟨(claim_C1 ToyCrypto [] 0).1, (claim_C1 ToyCrypto [] 0).2 ⟨[], 0⟩ rfl rfl⟩

/-- Claim C2: verify_detached returns SigningKeyTypeMismatch whenever the
variant tags of key and signature differ, returns InvalidSignature when the
tags match but the algorithm-specific check rejects, and succeeds exactly
when the tags match and the check passes. -/
theorem claim_C2 (C : Crypto) (pk : PublicKey C) (sig : Signature C) (m : List Nat) :
    (pk.variant ≠ sig.variant →
        pk.verify_detached sig m = .error .SigningKeyTypeMismatch) ∧
      (pk.variant = sig.variant → primitiveAccepts pk sig m = false →
        pk.verify_detached sig m = .error .InvalidSignature) ∧
      (pk.verify_detached sig m = .ok () ↔
        (pk.variant = sig.variant ∧ primitiveAccepts pk sig m = true)) := by
  cases pk <;> cases sig <;>
    simp only [PublicKey.verify_detached, PublicKey.variant, Signature.variant,
      primitiveAccepts] <;>
    try split
  all_goals simp_all

/-- Witness for claim C2: an Ed25519 key with a Bls signature is rejected as
a type mismatch, and the matched-pair success condition at a concrete pair. -/
theorem claim_C2_witness :
    PublicKey.verify_detached (C := ToyCrypto) (.Ed25519 0) (.Bls (0, [])) []
        = .error .SigningKeyTypeMismatch ∧
      (PublicKey.verify_detached (C := ToyCrypto) (.Ed25519 0) (.Ed25519 (0, [])) []
          = .ok () ↔
        ((PublicKey.Ed25519 (C := ToyCrypto) 0).variant
            = (Signature.Ed25519 (C := ToyCrypto) (0, [])).variant ∧
          primitiveAccepts (C := ToyCrypto) (.Ed25519 0) (.Ed25519 (0, [])) [] = true)) :=
  ⟨(claim_C2 ToyCrypto (.Ed25519 0) (.Bls (0, [])) []).1 (by decide),
    (claim_C2 ToyCrypto (.Ed25519 0) (.Ed25519 (0, [])) []).2.2⟩

/-- Claim C3 (spec-modelled transition): a permission or owner mutation by a
requester that is neither the owner nor a User.Key holding ManagePermissions
fails with AccessDenied and leaves the container-level version unchanged; an
authorized mutation installs the new permissions and owner, increases the
version by exactly one, and appends a history record capturing the
pre-mutation data index and owner entry index. -/
theorem claim_C3 (C : Crypto) (s : MutableDataState C) (requester : C.BlsPk)
    (newPerms : List (User C × List Permission)) (newOwner : C.BlsPk) :
    (canManagePermissions s.md requester = false →
        mutatePermissionsOrOwner s requester newPerms newOwner = .error .AccessDenied ∧
          (runMutatePermissionsOrOwner s requester newPerms newOwner).md.version
            = s.md.version) ∧
      (canManagePermissions s.md requester = true →
        ∃ s2, mutatePermissionsOrOwner s requester newPerms newOwner = .ok s2 ∧
          s2.md.permissions = newPerms ∧ s2.md.owners = newOwner ∧
          s2.md.version = s.md.version + 1 ∧
          s2.history = s.history ++ [⟨newPerms, s.data_index, s.owner_entry_index⟩]) := by
  constructor
  · intro h
    refine ⟨?_, ?_⟩
    · simp [mutatePermissionsOrOwner, h]
    · simp [runMutatePermissionsOrOwner, mutatePermissionsOrOwner, h]
  · intro h
    refine ⟨{ s with
              md := { s.md with
                      permissions := newPerms
                      owners := newOwner
                      version := s.md.version + 1 }
              history := s.history ++ [⟨newPerms, s.data_index, s.owner_entry_index⟩] },
      ?_, rfl, rfl, rfl, rfl⟩
    simp [mutatePermissionsOrOwner, h]

/-- Witness for claim C3: on a container owned by key 0 with empty permission
table, requester 1 is denied and the version stays 0, while owner 0 installs
new permissions and owner, bumping the version to 1 and recording the
pre-mutation indices 4 and 2. -/
theorem claim_C3_witness :
    (mutatePermissionsOrOwner (C := ToyCrypto)
          ⟨⟨⟨[]⟩, 1, .Sequenced [], [], 0, 0⟩, [], 4, 2⟩ 1 [(.Anyone, [.Read])] 3
        = .error .AccessDenied ∧
        (runMutatePermissionsOrOwner (C := ToyCrypto)
            ⟨⟨⟨[]⟩, 1, .Sequenced [], [], 0, 0⟩, [], 4, 2⟩ 1 [(.Anyone, [.Read])] 3).md.version
          = 0) ∧
      ∃ s2, mutatePermissionsOrOwner (C := ToyCrypto)
            ⟨⟨⟨[]⟩, 1, .Sequenced [], [], 0, 0⟩, [], 4, 2⟩ 0 [(.Anyone, [.Read])] 3
          = .ok s2 ∧ s2.md.permissions = [(.Anyone, [.Read])] ∧ s2.md.owners = 3 ∧
          s2.md.version = 0 + 1 ∧ s2.history = [] ++ [⟨[(.Anyone, [.Read])], 4, 2⟩] :=
  ⟨(claim_C3 ToyCrypto ⟨⟨⟨[]⟩, 1, .Sequenced [], [], 0, 0⟩, [], 4, 2⟩ 1
      [(.Anyone, [.Read])] 3).1 (by decide),
    (claim_C3 ToyCrypto ⟨⟨⟨[]⟩, 1, .Sequenced [], [], 0, 0⟩, [], 4, 2⟩ 0
      [(.Anyone, [.Read])] 3).2 (by decide)⟩

/-- Claim C4, evaluated on the code: in src/mutable_data.rs the variant named
Sequenced holds plain byte values with no per-entry version, and the variant
named Unsequenced holds (bytes, per-entry version) pairs — the opposite
assignment to the one the claim states.  The code contradicts its own
documentation (the Value doc comment ties the per-entry version to sequential
incrementing, and the enum comment calls the variants conflict-free versus
conflict-aware), so this is recorded as a code bug. -/
theorem claim_C4_code_shape :
    MutableDataKind.sequencedEntries (.Sequenced [("k", [7])]) = some [("k", [7])] ∧
      MutableDataKind.unsequencedEntries (.Unsequenced [("k", ⟨[7], 0⟩)])
        = some [("k", ⟨[7], 0⟩)] ∧
      MutableDataKind.sequencedEntries (.Unsequenced [("k", ⟨[7], 0⟩)]) = none ∧
      MutableDataKind.unsequencedEntries (.Sequenced [("k", [7])]) = none :=
  ⟨rfl, rfl, rfl, rfl⟩

/-- Claim C5 counterexample: the claimed pairwise injectivity is false.  The
address space has 256 to the power 32 elements while contents range over all
byte strings, so by pigeonhole some two distinct contents under the same
owner share an address; hence the conjunction of the two claimed injectivity
axes does not hold. -/
theorem claim_C5_counterexample :
    ¬ ((∀ (C : Crypto) (o : C.BlsPk) (c1 c2 : List Nat), c1 ≠ c2 →
          UnpubImmutableData.name (C := C) ⟨c1, o⟩
            ≠ UnpubImmutableData.name (C := C) ⟨c2, o⟩) ∧
        (∀ (C : Crypto) (c : List Nat) (o1 o2 : C.BlsPk), o1 ≠ o2 →
          UnpubImmutableData.name (C := C) ⟨c, o1⟩
            ≠ UnpubImmutableData.name (C := C) ⟨c, o2⟩)) := by
  rintro ⟨h1, -⟩
  obtain ⟨c1, c2, hne, heq⟩ := name_collision (C := ToyCrypto) 0
  exact h1 ToyCrypto 0 c1 c2 hne heq

/-- Claim C5 amended: the derivation is injective up to SHA3-256 collisions;
for any two (content, owner) pairs, either the pairs are equal, or the
derived names differ, or two distinct byte strings with equal SHA3-256
digests exist (the owner key encoding is assumed injective, as it is for the
canonical threshold_crypto encoding). -/
theorem claim_C5_amended (C : Crypto)
    (hinj : ∀ a b : C.BlsPk, C.blsPkToBytes a = C.blsPkToBytes b → a = b)
    (c1 c2 : List Nat) (o1 o2 : C.BlsPk) :
    (c1 = c2 ∧ o1 = o2) ∨
      UnpubImmutableData.name (C := C) ⟨c1, o1⟩
        ≠ UnpubImmutableData.name (C := C) ⟨c2, o2⟩ ∨
      ∃ x y : List Nat, x ≠ y ∧ sha3_256 x = sha3_256 y := by
  classical
  by_cases hx : sha3_256 c1 ++ C.blsPkToBytes o1 = sha3_256 c2 ++ C.blsPkToBytes o2
  · have hlen : (sha3_256 c1).length = (sha3_256 c2).length := by
      rw [sha3_256_length, sha3_256_length]
    obtain ⟨hinner, houter⟩ := List.append_inj hx hlen
    have ho : o1 = o2 := hinj _ _ houter
    by_cases hc : c1 = c2
    · exact Or.inl ⟨hc, ho⟩
    · exact Or.inr (Or.inr ⟨c1, c2, hc, hinner⟩)
  · by_cases hn : sha3_256 (sha3_256 c1 ++ C.blsPkToBytes o1)
        = sha3_256 (sha3_256 c2 ++ C.blsPkToBytes o2)
    · exact Or.inr (Or.inr ⟨_, _, hx, hn⟩)
    · refine Or.inr (Or.inl ?_)
      intro h
      exact hn (congrArg XorName.bytes h)

/-- Witness for the amended claim C5 at concrete distinct contents. -/
theorem claim_C5_amended_witness :
    (([0] : List Nat) = [1] ∧ (0 : ToyCrypto.BlsPk) = 0) ∨
      UnpubImmutableData.name (C := ToyCrypto) ⟨[0], 0⟩
        ≠ UnpubImmutableData.name (C := ToyCrypto) ⟨[1], 0⟩ ∨
      ∃ x y : List Nat, x ≠ y ∧ sha3_256 x = sha3_256 y :=
  claim_C5_amended ToyCrypto (fun a b h => by simpa using h) [0] [1] 0 0

/-- Claim C6: for a well-formed keypair of any variant whose primitives
satisfy the sign-verify round trip, verifying the signature produced by the
keypair against its own public key succeeds for every message including the
empty one; and a BlsShare keypair produces a signature carrying the share
index. -/
theorem claim_C6 (C : Crypto)
    (hEd : ∀ sk m, C.edVerify (C.edPub sk) (C.edSign sk m) m = true)
    (hBls : ∀ sk m, C.blsVerify (C.blsPub sk) (C.blsSign sk m) m = true)
    (hShare : ∀ sk m, C.blsShareVerify (C.blsSharePub sk) (C.blsShareSign sk m) m = true)
    (kp : Keypair C) (hwf : kp.WellFormed) (m : List Nat) :
    kp.public_key.verify_detached (kp.sign m) m = .ok () ∧
      ∀ skp, kp = .BlsShare skp →
        kp.sign m = .BlsShare ⟨skp.index, C.blsShareSign skp.secret m⟩ := by
  cases kp with
  | Ed25519 kp =>
    have h : kp.public = C.edPub kp.secret := hwf
    exact ⟨by simp [Keypair.public_key, Keypair.sign, PublicKey.verify_detached, h, hEd],
      fun skp hk => Keypair.noConfusion hk⟩
  | Bls kp =>
    have h : kp.public = C.blsPub kp.secret := hwf
    exact ⟨by simp [Keypair.public_key, Keypair.sign, PublicKey.verify_detached, h, hBls],
      fun skp hk => Keypair.noConfusion hk⟩
  | BlsShare kp =>
    have h : kp.public = C.blsSharePub kp.secret := hwf
    refine ⟨by simp [Keypair.public_key, Keypair.sign, PublicKey.verify_detached, h, hShare],
      fun skp hk => ?_⟩
    injection hk with h2
    subst h2
    rfl

/-- Witness for claim C6: a concrete BlsShare keypair with share index 5 and
the empty message, under the concrete primitives. -/
theorem claim_C6_witness :
    PublicKey.verify_detached (C := ToyCrypto)
        (Keypair.public_key (.BlsShare ⟨5, 7, 7, ()⟩))
        (Keypair.sign (.BlsShare ⟨5, 7, 7, ()⟩) []) [] = .ok () ∧
      Keypair.sign (C := ToyCrypto) (.BlsShare ⟨5, 7, 7, ()⟩) []
        = .BlsShare ⟨5, ToyCrypto.blsShareSign 7 []⟩ :=
  ⟨(claim_C6 ToyCrypto (fun _ _ => decide_eq_true rfl) (fun _ _ => decide_eq_true rfl)
      (fun _ _ => decide_eq_true rfl) (.BlsShare ⟨5, 7, 7, ()⟩) rfl []).1,
    (claim_C6 ToyCrypto (fun _ _ => decide_eq_true rfl) (fun _ _ => decide_eq_true rfl)
      (fun _ _ => decide_eq_true rfl) (.BlsShare ⟨5, 7, 7, ()⟩) rfl []).2 ⟨5, 7, 7, ()⟩ rfl⟩

/-- Claim C7 (spec-modelled response families): for every request of any of
the seven families and every error, error_response yields a response of the
same family as the request, with no cross-family or generic fallthrough. -/
theorem claim_C7 (r : Request) (e : Error) :
    (r.error_response e).family = r.family := by
  cases r <;> rfl

/-- Claim C8: converting a PublicKey to an XorName is pure and total and
yields the leading 32 bytes of the canonical key encoding: for Ed25519 the
raw 32-byte encoding verbatim, for Bls and BlsShare the first 32 bytes of the
canonical encoding with the excess discarded. -/
theorem claim_C8 (C : Crypto) (pk : PublicKey C) :
    (∀ k, pk = .Ed25519 k → (C.edPkToBytes k).length = XOR_NAME_LEN →
        xorNameOfPublicKey pk = ⟨C.edPkToBytes k⟩ ∧
          (xorNameOfPublicKey pk).bytes = (C.edPkToBytes k).take XOR_NAME_LEN) ∧
      (∀ k, pk = .Bls k → XOR_NAME_LEN ≤ (C.blsPkToBytes k).length →
        (xorNameOfPublicKey pk).bytes = (C.blsPkToBytes k).take XOR_NAME_LEN ∧
          (xorNameOfPublicKey pk).bytes.length = XOR_NAME_LEN) ∧
      (∀ k, pk = .BlsShare k → XOR_NAME_LEN ≤ (C.blsPkShareToBytes k).length →
        (xorNameOfPublicKey pk).bytes = (C.blsPkShareToBytes k).take XOR_NAME_LEN ∧
          (xorNameOfPublicKey pk).bytes.length = XOR_NAME_LEN) := by
  refine ⟨?_, ?_, ?_⟩ <;> rintro k rfl h
  · refine ⟨rfl, ?_⟩
    show C.edPkToBytes k = (C.edPkToBytes k).take XOR_NAME_LEN
    rw [List.take_of_length_le (le_of_eq h)]
  · refine ⟨rfl, ?_⟩
    show ((C.blsPkToBytes k).take XOR_NAME_LEN).length = XOR_NAME_LEN
    rw [List.length_take]
    exact Nat.min_eq_left h
  · refine ⟨rfl, ?_⟩
    show ((C.blsPkShareToBytes k).take XOR_NAME_LEN).length = XOR_NAME_LEN
    rw [List.length_take]
    exact Nat.min_eq_left h

/-- Witness for claim C8: a concrete Ed25519 key whose encoding is 32 bytes
is copied verbatim, and a concrete BlsShare key with a 48-byte encoding is
truncated to 32 bytes. -/
theorem claim_C8_witness :
    (xorNameOfPublicKey (C := ToyCrypto) (.Ed25519 3) = ⟨ToyCrypto.edPkToBytes 3⟩ ∧
        (xorNameOfPublicKey (C := ToyCrypto) (.Ed25519 3)).bytes
          = (ToyCrypto.edPkToBytes 3).take XOR_NAME_LEN) ∧
      (xorNameOfPublicKey (C := ToyCrypto) (.BlsShare 9)).bytes
          = (ToyCrypto.blsPkShareToBytes 9).take XOR_NAME_LEN ∧
        (xorNameOfPublicKey (C := ToyCrypto) (.BlsShare 9)).bytes.length = XOR_NAME_LEN := by
  have h1 : (ToyCrypto.edPkToBytes 3).length = XOR_NAME_LEN := by decide
  have h2 : XOR_NAME_LEN ≤ (ToyCrypto.blsPkShareToBytes 9).length := by decide
  exact ⟨(claim_C8 ToyCrypto (.Ed25519 3)).1 3 rfl h1,
    (claim_C8 ToyCrypto (.BlsShare 9)).2.2 9 rfl h2⟩

/-- Claim C9 counterexample: the constructor in src/mutable_data.rs takes one
single owner key, performs no validation, and cannot fail; at this concrete
input it unconditionally accepts and returns the container with version 0,
so no InvalidOwner rejection of a multi-owner supply exists in the code. -/
theorem claim_C9_counterexample :
    MutableData.new (C := ToyCrypto) ⟨[]⟩ 1 (.Sequenced []) [] 0
      = ⟨⟨[]⟩, 1, .Sequenced [], [], 0, 0⟩ := rfl

/-- Claim C9 amended: construction admits exactly one owner key because the
owners argument is a single PublicKey (multi-owner supply is unrepresentable
rather than dynamically rejected), and it always succeeds, storing the five
arguments with the container-level version initialised to 0. -/
theorem claim_C9_amended (C : Crypto) (name : XorName) (tag : Nat)
    (data : MutableDataKind) (permissions : List (User C × List Permission))
    (owners : C.BlsPk) :
    MutableData.new name tag data permissions owners
        = ⟨name, tag, data, permissions, 0, owners⟩ ∧
      (MutableData.new name tag data permissions owners).owners = owners ∧
      (MutableData.new name tag data permissions owners).version = 0 :=
  ⟨rfl, rfl, rfl⟩

/-- Claim C10: secret_key is total; its error branch is reachable only for
the Ed25519 variant.  Bls and BlsShare keypairs always yield the stored
secret (share); an Ed25519 keypair yields either the reconstructed secret or
the recoverable Unexpected error when byte-level reconstruction fails. -/
theorem claim_C10 (C : Crypto) (kp : Keypair C) :
    (∀ bkp, kp = .Bls bkp → kp.secret_key = .ok (.Bls bkp.secret)) ∧
      (∀ skp, kp = .BlsShare skp → kp.secret_key = .ok (.BlsShare skp.secret)) ∧
      (∀ ekp, kp = .Ed25519 ekp →
        (∃ sk, C.edSkFromBytes (C.edSkToBytes ekp.secret) = some sk ∧
            kp.secret_key = .ok (.Ed25519 sk)) ∨
          kp.secret_key = .error (.Unexpected "Could not deserialise Ed25519 secret key")) := by
  refine ⟨?_, ?_, ?_⟩ <;> rintro x rfl
  · rfl
  · rfl
  · cases h : C.edSkFromBytes (C.edSkToBytes x.secret) with
    | some sk => exact Or.inl ⟨sk, rfl, by simp [Keypair.secret_key, h]⟩
    | none => exact Or.inr (by simp [Keypair.secret_key, h])

/-- Witness for claim C10: a concrete Bls keypair always yields its stored
secret, and a concrete Ed25519 keypair reconstructs its secret from bytes. -/
theorem claim_C10_witness :
    Keypair.secret_key (C := ToyCrypto) (.Bls ⟨3, 3⟩) = .ok (.Bls 3) ∧
      ((∃ sk, ToyCrypto.edSkFromBytes (ToyCrypto.edSkToBytes 5) = some sk ∧
          Keypair.secret_key (C := ToyCrypto) (.Ed25519 ⟨5, 5⟩) = .ok (.Ed25519 sk)) ∨
        Keypair.secret_key (C := ToyCrypto) (.Ed25519 ⟨5, 5⟩)
          = .error (.Unexpected "Could not deserialise Ed25519 secret key")) :=
  ⟨(claim_C10 ToyCrypto (.Bls ⟨3, 3⟩)).1 ⟨3, 3⟩ rfl,
    (claim_C10 ToyCrypto (.Ed25519 ⟨5, 5⟩)).2.2 ⟨5, 5⟩ rfl⟩

end SafeNd
